import Mathlib

/-!
Verification of the `Node` relation-consistency engine of `dsalgos.dstructs`.

The Python module stores nodes as mutable objects linked by references.
We embed the object graph as a heap: a list of node records addressed by
integer ids (`NodeId`).  Python object identity (`is`) is id equality;
Python structural equality (`Node.__eq__`, `Data.__eq__`, list `==`) is a
fueled recursive function, since `__eq__` recurses through the (possibly
cyclic) neighborhood and only Python's call stack bounds it.  The four
relation setters are mutually recursive through re-entrant property
assignments, so they are embedded as a fueled interpreter `run`; a result
of `.out` for every fuel models non-termination (in CPython, a
`RecursionError`).  A `TypeError` raise is modelled as `.err` carrying the
heap at raise time (Python exceptions leave already-performed mutations in
place).
-/

/-- Node ids address the heap; they model Python object identity. -/
abbrev NodeId := Nat

/-- The `Data` payload class: `Data(*args, **kwargs)` stores its positional
and keyword arguments.  Payload values are opaque; we take them as `Nat`. -/
structure Data where
  args : List Nat
  kwargs : List (String × Nat)
  deriving DecidableEq

/-- Keys of the materialized `Data.data` dict: positional index or name. -/
abbrev DKey := Sum Nat String

/-- The `data` property: `{**dict(enumerate(self.args)), **self.kwargs}`.
Positional entries are keyed by index, keyword entries by name; the key
sets are disjoint (`int` vs `str` keys), so no overriding occurs. -/
def Data.dataMap (d : Data) : List (DKey × Nat) :=
  (d.args.enum.map fun iv => (Sum.inl iv.1, iv.2))
    ++ (d.kwargs.map fun kv => (Sum.inr kv.1, kv.2))

/-- First-match lookup in a materialized dict (keys are unique, as in a
Python dict built from `enumerate` and keyword arguments). -/
def dictLookup (k : DKey) : List (DKey × Nat) → Option Nat
  | [] => none
  | kv :: rest => if kv.1 = k then some kv.2 else dictLookup k rest

/-- Python dict equality: same keys, same value at every key. -/
def dictEq (a b : List (DKey × Nat)) : Bool :=
  a.all (fun kv => dictLookup kv.1 b = some kv.2)
    && b.all (fun kv => dictLookup kv.1 a = some kv.2)

/-- `Data.__eq__` between two `Data` objects: `self.data == data.data`. -/
def dataEq (a b : Data) : Bool :=
  dictEq a.dataMap b.dataMap

/-- A dynamically-typed Python value as far as the relation engine can
observe one: a node reference, `None`, a string, or a `Data` object. -/
inductive PyVal where
  | vnode (i : NodeId)
  | vnone
  | vstr (s : String)
  | vdata (d : Data)
  deriving DecidableEq

/-- A `Node` object's fields.  `_parent`, `_previous` and `_next` only ever
hold `None` or a `Node` (every write is preceded by the `isinstance`
check), so they are `Option NodeId`; `children` is assigned raw caller
lists in `__init__` and so may transiently hold arbitrary values. -/
structure NodeObj where
  data : Data
  parent : Option NodeId
  children : List PyVal
  previous : Option NodeId
  next_ : Option NodeId
  action : Option Nat
  deriving DecidableEq

/-- The object heap. -/
abbrev Heap := List NodeObj

/-- Placeholder record for out-of-range reads (never reached in the
modelled executions; Python has no analogue because all ids are live). -/
def dummyNode : NodeObj :=
  { data := ⟨[], []⟩, parent := none, children := [],
    previous := none, next_ := none, action := none }

/-- Dereference a node id. -/
def nodeAt (h : Heap) (i : NodeId) : NodeObj :=
  h.getD i dummyNode

/-- Mutate the object at id `i` in place. -/
def updObj (h : Heap) (i : NodeId) (g : NodeObj → NodeObj) : Heap :=
  h.set i (g (nodeAt h i))

/-- View an optional node reference as the Python value it is. -/
def pyOfOpt : Option NodeId → PyVal
  | none => .vnone
  | some i => .vnode i

/-- Read back an optional node reference from an argument already known to
be `None` or a `Node` (used after the `isinstance` checks). -/
def optOfPy : PyVal → Option NodeId
  | .vnode i => some i
  | _ => none

/-- Python identity (`is`) between observed values.  `None` is a
singleton; node references are identical iff they are the same object.
String and `Data` identity is not tracked: for those, `==` decides the
same verdict as the identity-or-equality test would, so returning `false`
here is observationally faithful. -/
def pyIs : PyVal → PyVal → Bool
  | .vnode i, .vnode j => i == j
  | .vnone, .vnone => true
  | _, _ => false

/-- `Data.__eq__` applied to an arbitrary value: the `isinstance(data,
Data)` check fails for anything that is not a `Data`, returning `False`. -/
def dataEqPy (d : Data) : PyVal → Bool
  | .vdata e => dataEq d e
  | _ => false

/-- One pending structural-equality comparison: two nodes, two plain
values, or two lists (elementwise, as Python list `==`). -/
inductive EqTask where
  | node (a b : NodeId)
  | py (a b : PyVal)
  | plist (as_ bs : List PyVal)

/-- Fueled evaluation of Python `==` as the module defines it.  Each
nested comparison consumes a stack frame (one unit of fuel); `none` means
the comparison did not finish within the given stack bound.

`Node.__eq__` compares, in order and with `and` short-circuiting:
`self.data == node.data`, `self.data == node.parent` (the source compares
the payload against the other node's *parent*), `self.children ==
node.children`, `self.previous == node.previous`, `self.next_ ==
node.next_`, `self.action == node.action`.  List `==` compares lengths and
then elements with the identity-or-equality test. -/
def eqF : Nat → Heap → EqTask → Option Bool
  | 0, _, _ => none
  | f + 1, h, .node a b =>
    let x := nodeAt h a
    let y := nodeAt h b
    if !(dataEq x.data y.data) then some false
    else if !(dataEqPy x.data (pyOfOpt y.parent)) then some false
    else
      match eqF f h (.plist x.children y.children) with
      | none => none
      | some false => some false
      | some true =>
        match eqF f h (.py (pyOfOpt x.previous) (pyOfOpt y.previous)) with
        | none => none
        | some false => some false
        | some true =>
          match eqF f h (.py (pyOfOpt x.next_) (pyOfOpt y.next_)) with
          | none => none
          | some false => some false
          | some true => some (x.action == y.action)
  | f + 1, h, .py a b =>
    match a, b with
    | .vnode i, .vnode j => eqF f h (.node i j)
    | .vnone, .vnone => some true
    | .vstr s, .vstr t => some (s == t)
    | .vdata d, .vdata e => some (dataEq d e)
    | _, _ => some false
  | f + 1, h, .plist as_ bs =>
    match as_, bs with
    | [], [] => some true
    | a :: as_, b :: bs =>
      if pyIs a b then eqF f h (.plist as_ bs)
      else
        match eqF f h (.py a b) with
        | none => none
        | some false => some false
        | some true => eqF f h (.plist as_ bs)
    | _, _ => some false

/-- Node equality always evaluates to `False`: the second conjunct of
`Node.__eq__` compares `self.data` (a `Data`) against `node.parent`
(`None` or a `Node`), and `Data.__eq__` rejects both. -/
theorem eqF_node_false (f : Nat) (h : Heap) (a b : NodeId) :
    eqF (f + 1) h (.node a b) = some false := by
  show eqF (f + 1) h (.node a b) = some false
  cases hd : dataEq (nodeAt h a).data (nodeAt h b).data <;>
    cases hp : (nodeAt h b).parent <;>
      simp [eqF, hd, hp, dataEqPy, pyOfOpt]

/-- Python `self != x` where `x` is the current value of an optional node
field: `!=` negates `Node.__eq__`; comparison with `None` yields `False`
under `__eq__`, so `!=` is `True` there without any recursion. -/
def neF (f : Nat) (h : Heap) (self : NodeId) : Option NodeId → Option Bool
  | none => some true
  | some j => (eqF f h (.node self j)).map (fun b => !b)

/-- The `self != x` guard always evaluates to `True` once there is fuel to
run `__eq__`: node equality is never `True` (`eqF_node_false`), so the
"already mutual" check never fires. -/
theorem neF_some_true (f : Nat) (h : Heap) (self : NodeId)
    (o : Option NodeId) : neF (f + 1) h self o = some true := by
  cases o with
  | none => rfl
  | some j => simp [neF, eqF_node_false]

/-- Python list membership `x in lst`: scan for the first element that is
identical (`is`) or equal (`==`) to `x`; `CPython` tests identity first,
so membership of an element already present by identity needs no call to
`__eq__`. -/
def memberF (f : Nat) (h : Heap) (x : PyVal) : List PyVal → Option Bool
  | [] => some false
  | e :: rest =>
    if pyIs e x then some true
    else
      match eqF f h (.py e x) with
      | none => none
      | some true => some true
      | some false => memberF f h x rest

/-- The `isinstance(v, (Node, NoneType))` test guarding every relation
write. -/
def isNodeOrNone : PyVal → Bool
  | .vnode _ => true
  | .vnone => true
  | _ => false

/-- Outcome of a relation write: normal return, a raised `TypeError`
carrying the heap at raise time, or no return within the fuel bound
(modelling the infinite mutual recursion / CPython `RecursionError`). -/
inductive RunRes where
  | ok (h : Heap)
  | err (h : Heap)
  | out
  deriving DecidableEq

/-- A pending property assignment: `self.parent = v`, `self.previous = v`
or `self.next_ = v` through the corresponding property setter. -/
inductive Op where
  | parent (self : NodeId) (v : PyVal)
  | previous (self : NodeId) (v : PyVal)
  | next (self : NodeId) (v : PyVal)

/-- Fueled interpreter for the three property setters of `Node`, embedded
line by line from the source; each nested setter call consumes one unit of
fuel (a stack frame).

* `parent` setter: validate; store `_parent`; if the new parent is a node
  and `self not in parent.children`, assign `self.previous =
  parent.children[-1] if len(parent.children) > 0 else None` (through the
  `previous` setter) and then append `self` to `parent.children`.
* `previous` setter: validate; store `_previous`; if the new neighbor is a
  node and `self != previous.next_`, assign `previous.next_ = self`
  (through the `next_` setter) and then `self.parent = previous.parent`.
* `next_` setter: the symmetric mirror. -/
def run : Nat → Heap → Op → RunRes
  | 0, _, _ => .out
  | f + 1, h, .parent self v =>
    if !(isNodeOrNone v) then .err h
    else
      let pv := optOfPy v
      let h1 := updObj h self (fun o => { o with parent := pv })
      match pv with
      | none => .ok h1
      | some p =>
        match memberF f h1 (.vnode self) ((nodeAt h1 p).children) with
        | none => .out
        | some true => .ok h1
        | some false =>
          let prevArg :=
            match (nodeAt h1 p).children.getLast? with
            | some last => last
            | none => PyVal.vnone
          match run f h1 (.previous self prevArg) with
          | .out => .out
          | .err h2 => .err h2
          | .ok h2 =>
            .ok (updObj h2 p (fun o =>
              { o with children := o.children ++ [.vnode self] }))
  | f + 1, h, .previous self v =>
    if !(isNodeOrNone v) then .err h
    else
      let pv := optOfPy v
      let h1 := updObj h self (fun o => { o with previous := pv })
      match pv with
      | none => .ok h1
      | some p =>
        match neF f h1 self ((nodeAt h1 p).next_) with
        | none => .out
        | some false => .ok h1
        | some true =>
          match run f h1 (.next p (.vnode self)) with
          | .out => .out
          | .err h2 => .err h2
          | .ok h2 =>
            run f h2 (.parent self (pyOfOpt ((nodeAt h2 p).parent)))
  | f + 1, h, .next self v =>
    if !(isNodeOrNone v) then .err h
    else
      let pv := optOfPy v
      let h1 := updObj h self (fun o => { o with next_ := pv })
      match pv with
      | none => .ok h1
      | some p =>
        match neF f h1 self ((nodeAt h1 p).previous) with
        | none => .out
        | some false => .ok h1
        | some true =>
          match run f h1 (.previous p (.vnode self)) with
          | .out => .out
          | .err h2 => .err h2
          | .ok h2 =>
            run f h2 (.parent self (pyOfOpt ((nodeAt h2 p).parent)))

/-- Assigning a node to `previous` or `next_` never returns, at any fuel:
after the field store, the "already mutual" guard `self != partner.next_`
(respectively `self != partner.previous`) is evaluated with the broken
structural equality, which is never `True`, so the two setters keep
re-entering each other forever. -/
theorem chainLink_out (f : Nat) :
    ∀ (h : Heap) (a b : NodeId),
      run f h (.previous a (.vnode b)) = .out ∧
        run f h (.next a (.vnode b)) = .out := by
  induction f with
  | zero => intro h a b; exact ⟨rfl, rfl⟩
  | succ f ih =>
    intro h a b
    constructor
    · show run (f + 1) h (.previous a (.vnode b)) = .out
      simp only [run, isNodeOrNone, optOfPy, Bool.not_true,
        Bool.false_eq_true, if_false]
      cases f with
      | zero =>
        cases hx : (nodeAt (updObj h a fun o => { o with previous := some b })
            b).next_ <;> simp [neF, eqF, hx, run]
      | succ f' =>
        rw [neF_some_true]
        rw [(ih _ b a).2]
    · show run (f + 1) h (.next a (.vnode b)) = .out
      simp only [run, isNodeOrNone, optOfPy, Bool.not_true,
        Bool.false_eq_true, if_false]
      cases f with
      | zero =>
        cases hx : (nodeAt (updObj h a fun o => { o with next_ := some b })
            b).previous <;> simp [neF, eqF, hx, run]
      | succ f' =>
        rw [neF_some_true]
        rw [(ih _ b a).1]

/-- Result of `Node.__init__`: the heap and the id of the new node, a
raised `TypeError` with the heap at raise time, or no return within the
fuel bound. -/
inductive InitRes where
  | ok (h : Heap) (self : NodeId)
  | err (h : Heap)
  | out
  deriving DecidableEq

/-- The `for child in children` loop of `__init__`: a `Node` element gets
`child.parent = self` through the parent setter; any other element raises
`TypeError` at that point, after the preceding elements were already
linked. -/
def initChildren (f : Nat) (self : NodeId) : Heap → List PyVal → RunRes
  | h, [] => .ok h
  | h, c :: rest =>
    match c with
    | .vnode ci =>
      match run f h (.parent ci (.vnode self)) with
      | .ok h' => initChildren f self h' rest
      | .err h' => .err h'
      | .out => .out
    | _ => .err h

/-- `Node.__init__`, embedded in source order.  The `isinstance` checks on
`parent`, `previous` and `next_` run before any mutation; the `children`
argument is modelled as the list it must be (the container-type check on
`list|tuple|set` is outside the embedding).  The new object's plain field
writes (`self.data`, `self._parent`, `self.children`, `self._previous`,
`self._next`, `self.action`) are collapsed into the allocation: no modelled
execution reads a field of the new node before `__init__` assigns it.  The
re-entrant steps then run in source order: append `self` to
`parent.children` (a direct list append, without a membership check), link
each child via the `parent` setter, then `self.previous.next_ = self` via
the `next_` setter, then `self.next_.previous = self` via the `previous`
setter. -/
def initNode : Nat → Heap → Data → PyVal → List PyVal → PyVal → PyVal →
    Option Nat → InitRes
  | 0, _, _, _, _, _, _, _ => .out
  | f + 1, h, data, parent, children, previous, next_, action =>
    if !(isNodeOrNone parent && isNodeOrNone previous
          && isNodeOrNone next_) then .err h
    else
      let self := h.length
      let h := h ++ [{ data := data, parent := optOfPy parent,
                       children := children, previous := optOfPy previous,
                       next_ := optOfPy next_, action := action }]
      let h :=
        match optOfPy parent with
        | some p => updObj h p (fun o =>
            { o with children := o.children ++ [.vnode self] })
        | none => h
      match initChildren f self h children with
      | .out => .out
      | .err h' => .err h'
      | .ok h' =>
        match
          (match optOfPy previous with
           | some p => run f h' (.next p (.vnode self))
           | none => .ok h') with
        | .out => .out
        | .err h'' => .err h''
        | .ok h'' =>
          match
            (match optOfPy next_ with
             | some nx => run f h'' (.previous nx (.vnode self))
             | none => .ok h'') with
          | .out => .out
          | .err h3 => .err h3
          | .ok h3 => .ok h3 self

/-- `Node.__bool__`: `self == Node()` — construct a fresh default node and
compare structurally. -/
def nodeBoolF : Nat → Heap → NodeId → Option Bool
  | 0, _, _ => none
  | f + 1, h, self =>
    match initNode f h ⟨[], []⟩ .vnone [] .vnone .vnone none with
    | .ok h' m => eqF f h' (.node self m)
    | _ => none

/-- `Node.__len__`: `len(self.children)`. -/
def lenNode (h : Heap) (n : NodeId) : Nat :=
  (nodeAt h n).children.length

/-- The `degree` property: `len(self)`. -/
def degree (h : Heap) (n : NodeId) : Nat :=
  lenNode h n

/-- The `depth` property: walk `currentnode = currentnode.parent` counting
hops until the parent is `None`.  The loop is fueled because a cyclic
parent chain never exits it. -/
def depthF : Nat → Heap → NodeId → Option Nat
  | 0, _, _ => none
  | f + 1, h, n =>
    match (nodeAt h n).parent with
    | none => some 0
    | some p => (depthF f h p).map (· + 1)

/-- The `isinternal` property: `len(self) >= 1`. -/
def isinternal (h : Heap) (n : NodeId) : Bool :=
  decide (1 ≤ lenNode h n)

/-- The `isexternal` property: `len(self) == 0`. -/
def isexternal (h : Heap) (n : NodeId) : Bool :=
  decide (lenNode h n = 0)

/-- The `isroot` property: `self.parent is None`. -/
def isroot (h : Heap) (n : NodeId) : Bool :=
  (nodeAt h n).parent.isNone

/-- Python `list.remove(x)`: drop the first element identical or equal to
`x`.  The outer `none` is fuel exhaustion inside `__eq__`; the inner
`none` is the `ValueError` raised when no element matches (the list is
scanned without mutation, so the raise leaves it unchanged). -/
def removeF (f : Nat) (h : Heap) (x : PyVal) :
    List PyVal → Option (Option (List PyVal))
  | [] => some none
  | e :: rest =>
    if pyIs e x then some (some rest)
    else
      match eqF f h (.py e x) with
      | none => none
      | some true => some (some rest)
      | some false => (removeF f h x rest).map (Option.map (e :: ·))

/-- Result of the `siblings` property: the returned tuple together with
the heap after the call (the source binds `siblings =
self.parent.children` — an alias, not a copy — and then calls
`siblings.remove(self)`, so the removal mutates the parent's child
list). -/
inductive SibRes where
  | ok (h : Heap) (v : List PyVal)
  | err (h : Heap)
  | out
  deriving DecidableEq

/-- The `siblings` property: `()` for a root; otherwise remove `self` from
the aliased `self.parent.children` and return the resulting list as a
tuple. -/
def siblingsF (f : Nat) (h : Heap) (n : NodeId) : SibRes :=
  match (nodeAt h n).parent with
  | none => .ok h []
  | some p =>
    match removeF f h (.vnode n) ((nodeAt h p).children) with
    | none => .out
    | some none => .err h
    | some (some l) =>
      .ok (updObj h p (fun o => { o with children := l })) l

/-- Number of parent-hops from a node to a node with no parent — the
specification-side meaning of `depth`, stated independently of the loop in
the source. -/
inductive RootHops : Heap → NodeId → Nat → Prop where
  | root {h : Heap} {n : NodeId} :
      (nodeAt h n).parent = none → RootHops h n 0
  | step {h : Heap} {n p : NodeId} {k : Nat} :
      (nodeAt h n).parent = some p → RootHops h p k →
      RootHops h n (k + 1)

/-- The record a default `Node()` carries: `Data()` payload, no parent, no
children, no chain neighbors, no action. -/
def defObj : NodeObj :=
  { data := ⟨[], []⟩, parent := none, children := [],
    previous := none, next_ := none, action := none }

/-- Constructing a default `Node()` always succeeds and appends a fresh
default record to the heap. -/
theorem initNode_default (f : Nat) (h : Heap) :
    initNode (f + 1) h ⟨[], []⟩ .vnone [] .vnone .vnone none =
      .ok (h ++ [defObj]) h.length := by
  simp [initNode, initChildren, isNodeOrNone, optOfPy, defObj]

/-- Reading through a single-object update: the updated record at the
written id (when in range), the old record elsewhere. -/
theorem nodeAt_updObj (h : Heap) (i : NodeId) (g : NodeObj → NodeObj)
    (j : NodeId) :
    nodeAt (updObj h i g) j =
      if i = j ∧ i < h.length then g (nodeAt h i) else nodeAt h j := by
  induction h generalizing i j with
  | nil => simp [updObj, nodeAt]
  | cons x t ih =>
    cases i with
    | zero =>
      cases j with
      | zero => simp [updObj, nodeAt]
      | succ j => simp [updObj, nodeAt, List.set]
    | succ i =>
      cases j with
      | zero => simp [updObj, nodeAt, List.set]
      | succ j =>
        have := ih (i := i) (j := j)
        simp only [updObj, nodeAt, List.set, List.getD_cons_succ,
          List.length_cons] at this ⊢
        rw [this]
        by_cases hij : i = j
        · subst hij; simp [Nat.succ_lt_succ_iff]
        · simp [hij, fun hh => hij (Nat.succ_injective hh)]

/-- C1: refuted — for every heap and every pair of node ids, the
assignments `a.previous = b` and `a.next_ = b` through the property
setters never return, at any stack bound: the termination guard
`self != previous.next_` (resp. `self != next_.previous`) never becomes
false because `Node.__eq__` never evaluates to `True`, so the two setters
re-enter each other forever (a `RecursionError` in CPython). -/
theorem link_setters_never_terminate (f : Nat) (h : Heap) (a b : NodeId) :
    run f h (.previous a (.vnode b)) = .out ∧
      run f h (.next a (.vnode b)) = .out :=
  chainLink_out f h a b

/-- C3: refuted — assigning `a.next_ = b` through the setter never
returns at any stack bound, so no post-state with `b.previous == a` is
ever established; the symmetric-restoration cascade is an infinite mutual
recursion. -/
theorem next_setter_no_symmetric_poststate (f : Nat) (h : Heap)
    (a b : NodeId) :
    run f h (.next a (.vnode b)) = .out :=
  (chainLink_out f h a b).2

/-- C4: refuted — even when `a.parent == p` and `b.parent` is absent, the
link `a.next_ = b` never returns at any stack bound, so no parent
propagation is observed (and the propagation statement the setter would
run, `self.parent = next_.parent`, would set `a`'s parent from `b`'s,
not `b`'s from `a`'s). -/
theorem parent_propagation_diverges (f : Nat) (h : Heap) (a b p : NodeId)
    (_hap : (nodeAt h a).parent = some p)
    (_hbp : (nodeAt h b).parent = none) :
    run f h (.next a (.vnode b)) = .out :=
  (chainLink_out f h a b).2

/-- Heap for the C4 witness: a parent with one child, plus a fresh node. -/
def hPropagate : Heap :=
  [{ defObj with children := [.vnode 1] },
   { defObj with parent := some 0 },
   defObj]

/-- Witness for C4 at a concrete input: node 1 has parent 0, node 2 has no
parent, and `node1.next_ = node2` runs out at fuel 9. -/
theorem parent_propagation_diverges_witness :
    (nodeAt hPropagate 1).parent = some 0 ∧
      (nodeAt hPropagate 2).parent = none ∧
      run 9 hPropagate (.next 1 (.vnode 2)) = .out :=
  ⟨by decide, by decide,
    parent_propagation_diverges 9 hPropagate 1 2 0 (by decide) (by decide)⟩

/-- Heap with two structurally identical default nodes. -/
def hPair : Heap := [defObj, defObj]

/-- C6: refuted — nodes 0 and 1 agree on all six attributes (data,
parent, children, previous, next_, action), yet `Node.__eq__` evaluates to
`False` at every stack bound, because its second conjunct compares
`self.data` against `node.parent` instead of `self.parent` against
`node.parent`. -/
theorem node_eq_not_structural :
    ((nodeAt hPair 0).data = (nodeAt hPair 1).data ∧
      (nodeAt hPair 0).parent = (nodeAt hPair 1).parent ∧
      (nodeAt hPair 0).children = (nodeAt hPair 1).children ∧
      (nodeAt hPair 0).previous = (nodeAt hPair 1).previous ∧
      (nodeAt hPair 0).next_ = (nodeAt hPair 1).next_ ∧
      (nodeAt hPair 0).action = (nodeAt hPair 1).action) ∧
      ∀ f : Nat, eqF (f + 1) hPair (.node 0 1) = some false :=
  ⟨⟨rfl, rfl, rfl, rfl, rfl, rfl⟩, fun f => eqF_node_false f hPair 0 1⟩

/-- Heap holding one freshly constructed default node. -/
def hDefault : Heap := [defObj]

/-- C10: confirmed — a default `Node()` compares unequal to itself at
every stack bound (the `self.data == node.parent` conjunct is `False`),
and `bool(N)`, defined as `N == Node()`, evaluates to `False` for every
node in every heap. -/
theorem node_eq_irreflexive_and_bool_false :
    (∀ f : Nat, eqF (f + 1) hDefault (.node 0 0) = some false) ∧
      ∀ (f : Nat) (h : Heap) (n : NodeId),
        nodeBoolF (f + 2) h n = some false := by
  refine ⟨fun f => eqF_node_false f hDefault 0 0, fun f h n => ?_⟩
  show nodeBoolF (f + 1 + 1) h n = some false
  simp only [nodeBoolF, initNode_default]
  exact eqF_node_false f (h ++ [defObj]) n h.length

/-- Initial heap of the end-to-end scenario: just the root `R`. -/
def hRoot : Heap := [defObj]

/-- Heap after `A = Node(parent=R)`: `R.children == [A]`, `A._parent == R`. -/
def hScenario : Heap :=
  [{ defObj with children := [.vnode 1] },
   { defObj with parent := some 0 }]

/-- C2: refuted — the first step of the scenario succeeds
(`A = Node(parent=R)` returns with `R.children == [A]`), but the second
step `B = Node(previous=A)` never returns at any stack bound: the
constructor line `self.previous.next_ = self` enters the non-terminating
previous/next setter recursion, so none of the claimed final expectations
is ever reached. -/
theorem end_to_end_scenario_diverges :
    (initNode 1 hRoot ⟨[], []⟩ (.vnode 0) [] .vnone .vnone none =
        .ok hScenario 1 ∧
      (nodeAt hScenario 0).children = [.vnode 1]) ∧
      ∀ f : Nat,
        initNode f hScenario ⟨[], []⟩ .vnone [] (.vnode 1) .vnone none =
          .out := by
  refine ⟨⟨by decide, by decide⟩, fun f => ?_⟩
  cases f with
  | zero => rfl
  | succ f =>
    have hc := (chainLink_out f
      (hScenario ++ [{ defObj with previous := some 1 }]) 1 2).2
    simp only [initNode, isNodeOrNone, Bool.and_true, Bool.and_self,
      Bool.not_true, Bool.false_eq_true, if_false, optOfPy, initChildren]
    simp only [hScenario, defObj, List.cons_append, List.nil_append,
      List.length_cons, List.length_nil, Nat.zero_add] at hc ⊢
    norm_num at hc ⊢
    rw [hc]

/-- C5: refuted — when the target parent `b` already has a child `c`
(with `a` not that child by identity), the assignment `a.parent = b`
through the setter never returns at any stack bound: `a` is not found in
`b.children` (identity fails and `Node.__eq__` is never `True`), so the
setter assigns `a.previous = b.children[-1]`, and that chain link recurses
forever; in particular `a` is never appended to `b.children`. -/
theorem parent_setter_existing_child_diverges (f : Nat) (h : Heap)
    (a b c : NodeId) (hch : (nodeAt h b).children = [.vnode c])
    (hac : a ≠ c) :
    run f h (.parent a (.vnode b)) = .out := by
  cases f with
  | zero => rfl
  | succ f =>
    have hca : (c == a) = false := by
      simp only [beq_eq_false_iff_ne, ne_eq]
      exact fun hh => hac hh.symm
    have hch1 :
        (nodeAt (updObj h a fun o => { o with parent := some b })
          b).children = [.vnode c] := by
      rw [nodeAt_updObj]
      by_cases hab : a = b ∧ a < h.length
      · rw [if_pos hab]
        show (nodeAt h a).children = [.vnode c]
        rw [hab.1, hch]
      · rw [if_neg hab, hch]
    show run (f + 1) h (.parent a (.vnode b)) = .out
    simp only [run, isNodeOrNone, Bool.not_true, Bool.false_eq_true,
      if_false, optOfPy]
    rw [hch1]
    cases f with
    | zero => simp [memberF, pyIs, hca, eqF]
    | succ f =>
      have hmem :
          memberF (f + 1)
            (updObj h a fun o => { o with parent := some b })
            (.vnode a) [.vnode c] =
            match eqF f (updObj h a fun o => { o with parent := some b })
                (.node c a) with
            | none => none
            | some true => some true
            | some false => some false := by
        simp [memberF, pyIs, hca, eqF]
      cases f with
      | zero =>
        rw [hmem]
        simp [eqF]
      | succ f =>
        rw [hmem, eqF_node_false]
        have hlast : ([PyVal.vnode c] : List PyVal).getLast? =
            some (.vnode c) := rfl
        simp only [hlast]
        rw [(chainLink_out (f + 1 + 1) _ a c).1]

/-- Heap for the C5 witness: node 0 already has the single child 1; node 2
is fresh. -/
def hOneChild : Heap :=
  [{ defObj with children := [.vnode 1] },
   { defObj with parent := some 0 },
   defObj]

/-- Witness for C5 at a concrete input: node 0 has children `[node 1]`,
node 2 is a different node, and `node2.parent = node0` runs out at
fuel 6. -/
theorem parent_setter_existing_child_diverges_witness :
    (nodeAt hOneChild 0).children = [.vnode 1] ∧ (2 : NodeId) ≠ 1 ∧
      run 6 hOneChild (.parent 2 (.vnode 0)) = .out :=
  ⟨by decide, by decide,
    parent_setter_existing_child_diverges 6 hOneChild 2 0 1
      (by decide) (by decide)⟩

/-- Heap for C7: parent 0 with children `[1, 2, 3]`, all three children
pointing back at the parent. -/
def hSiblings : Heap :=
  [{ defObj with children := [.vnode 1, .vnode 2, .vnode 3] },
   { defObj with parent := some 0 },
   { defObj with parent := some 0 },
   { defObj with parent := some 0 }]

/-- Heap after reading `node1.siblings` on `hSiblings`: the parent's child
list has lost node 1. -/
def hSiblingsAfter : Heap :=
  [{ defObj with children := [.vnode 2, .vnode 3] },
   { defObj with parent := some 0 },
   { defObj with parent := some 0 },
   { defObj with parent := some 0 }]

/-- C7: refuted for `siblings` — with parent 0 holding children
`[N, X, Y] = [1, 2, 3]`, reading `N.siblings` does return `(X, Y)`, but it
also mutates the parent: `siblings = self.parent.children` aliases the
parent's list and `siblings.remove(self)` shrinks it, so afterwards
`parent.children == [X, Y]`, not the original `[N, X, Y]`. -/
theorem siblings_mutates_parent_children :
    siblingsF 0 hSiblings 1 = .ok hSiblingsAfter [.vnode 2, .vnode 3] ∧
      (nodeAt hSiblings 0).children = [.vnode 1, .vnode 2, .vnode 3] ∧
      (nodeAt hSiblingsAfter 0).children = [.vnode 2, .vnode 3] :=
  ⟨by decide, by decide, by decide⟩

/-- Heap for the C8 counterexample: one pre-existing fresh node. -/
def hPre : Heap := [defObj]

/-- Heap at the moment the `TypeError` of the C8 counterexample is raised:
the pre-existing node 0 has already had its parent reassigned to the node
under construction (id 1). -/
def hPartial : Heap :=
  [{ defObj with parent := some 1 },
   { defObj with children := [.vnode 0, .vstr "x"] }]

/-- C8 counterexample: `Node(children=[node0, "x"])` raises a type error,
but only after the loop has already linked the pre-existing `node0` to the
node under construction — `node0.parent` changed from `None` to the new
node, so a mutation precedes the validation failure and the pre-existing
state is not preserved. -/
theorem init_children_mutates_before_validation :
    initNode 2 hPre ⟨[], []⟩ .vnone [.vnode 0, .vstr "x"] .vnone .vnone
        none = .err hPartial ∧
      (nodeAt hPre 0).parent = none ∧
      (nodeAt hPartial 0).parent = some 1 :=
  ⟨by decide, by decide, by decide⟩

/-- C8 amended: for the `parent`, `previous` and `next_` setters and for
the scalar constructor arguments `parent`, `previous` and `next_`, the
`isinstance` validation runs before any mutation: a non-`Node`, non-`None`
argument raises the type error with the heap unchanged.  (The elements of
a `children` sequence are the exception — they are validated inside the
linking loop, after earlier elements were mutated.) -/
theorem scalar_relation_validation_precedes_mutation (f : Nat) (h : Heap)
    (s : NodeId) (v : PyVal) (hv : isNodeOrNone v = false) :
    run (f + 1) h (.parent s v) = .err h ∧
      run (f + 1) h (.previous s v) = .err h ∧
      run (f + 1) h (.next s v) = .err h ∧
      ∀ (d : Data) (ch : List PyVal) (a : Option Nat),
        initNode (f + 1) h d v ch .vnone .vnone a = .err h ∧
          initNode (f + 1) h d .vnone ch v .vnone a = .err h ∧
          initNode (f + 1) h d .vnone ch .vnone v a = .err h := by
  have hnn : isNodeOrNone PyVal.vnone = true := rfl
  refine ⟨?_, ?_, ?_, fun d ch a => ⟨?_, ?_, ?_⟩⟩ <;>
    simp [run, initNode, hv, hnn]

/-- Witness for the amended C8 at a concrete input: a string argument is
rejected with the heap unchanged, for the `parent` setter and the
constructor. -/
theorem scalar_relation_validation_witness :
    isNodeOrNone (.vstr "bad") = false ∧
      run 1 hPre (.parent 0 (.vstr "bad")) = .err hPre ∧
      initNode 1 hPre ⟨[], []⟩ (.vstr "bad") [] .vnone .vnone none =
        .err hPre :=
  ⟨by decide,
    (scalar_relation_validation_precedes_mutation 0 hPre 0 (.vstr "bad")
      (by decide)).1,
    ((scalar_relation_validation_precedes_mutation 0 hPre 0 (.vstr "bad")
      (by decide)).2.2.2 ⟨[], []⟩ [] none).1⟩

/-- The fueled `depth` loop computes exactly the number of parent-hops to
a parentless node, whenever that number is below the fuel bound. -/
theorem depthF_rootHops {h : Heap} {n : NodeId} {k : Nat}
    (hr : RootHops h n k) : ∀ f : Nat, k < f → depthF f h n = some k := by
  induction hr with
  | root hp =>
    intro f hf
    cases f with
    | zero => omega
    | succ f => simp [depthF, hp]
  | step hp _ ih =>
    intro f hf
    cases f with
    | zero => omega
    | succ f => simp [depthF, hp, ih f (by omega)]

/-- C9: confirmed — `degree` is the length of `children`; `isroot` holds
exactly when `parent` is absent; `isinternal` holds exactly when the
degree is at least one; a parentless node has depth `0`; and in general
the `depth` loop returns the number of parent-hops to a parentless node
(whenever the hop count is finite, i.e. below some fuel bound — a cyclic
parent chain makes the source loop spin forever and the fueled loop return
nothing). -/
theorem derived_accessors_correct (h : Heap) (n : NodeId) :
    degree h n = (nodeAt h n).children.length ∧
      (isroot h n = true ↔ (nodeAt h n).parent = none) ∧
      (isinternal h n = true ↔ 1 ≤ degree h n) ∧
      ((nodeAt h n).parent = none →
        ∀ f : Nat, depthF (f + 1) h n = some 0 ∧ isroot h n = true) ∧
      ∀ (k f : Nat), RootHops h n k → k < f → depthF f h n = some k := by
  refine ⟨rfl, ?_, ?_, fun hp f => ⟨by simp [depthF, hp], ?_⟩, ?_⟩
  · simp [isroot, Option.isNone_iff_eq_none]
  · simp [isinternal, degree]
  · simp [isroot, hp]
  · intro k f hr hk
    exact depthF_rootHops hr f hk

/-- Heap for the C9 witness: a root with one child. -/
def hTree : Heap :=
  [{ defObj with children := [.vnode 1] },
   { defObj with parent := some 0 }]

/-- Witness for C9 at a concrete input: the root has degree 1, is a root,
is internal, has depth 0; the child has depth 1. -/
theorem derived_accessors_correct_witness :
    degree hTree 0 = 1 ∧ isroot hTree 0 = true ∧
      isinternal hTree 0 = true ∧ depthF 1 hTree 0 = some 0 ∧
      depthF 2 hTree 1 = some 1 :=
  ⟨(derived_accessors_correct hTree 0).1.trans (by decide),
    ((derived_accessors_correct hTree 0).2.1).mpr (by decide),
    ((derived_accessors_correct hTree 0).2.2.1).mpr (by decide),
    ((derived_accessors_correct hTree 0).2.2.2.1 (by decide) 0).1,
    (derived_accessors_correct hTree 1).2.2.2.2 1 2
      (@RootHops.step hTree 1 0 0 (by decide)
        (@RootHops.root hTree 0 (by decide))) (by decide)⟩
